import Mathlib

/-!
# Shallow embedding of the parkinson-web-test record store

This file embeds, in Lean 4, the data layer of the repository:

* `src/src/services/database.js` — the `DatabaseManager` class of the
  extended prototype (IndexedDB wrapper): patient CRUD, recording CRUD,
  search, clear, and statistics;
* the voice-capture timing state machine of the `VoiceRecorder` class
  (pause/resume/stop duration accounting).

Modelling conventions (the embedding, not a simplification):

* An IndexedDB object store is modelled as a Lean list of records plus the
  store's key generator (`nextPatientId`, `nextRecordingId`, starting at 1
  as IndexedDB generators do).  `add` appends a record under the generated
  key; `put` replaces the record with the same key or inserts it, and bumps
  the generator past an explicit key, as the IndexedDB key generator does.
* JavaScript promises that resolve or reject become `Except String _`:
  `.error` is a rejection with the thrown/rejected message, `.ok` a
  resolution.
* JavaScript timestamps (`new Date().toISOString()`, `Date.now()`) are
  modelled as numbers; ISO-8601 strings compare like the instants they
  denote, so `new Date(a) - new Date(b)` comparisons become numeric
  comparisons on these fields.  Each mutating operation takes the clock
  value `now` as an explicit argument.
* JavaScript falsiness of an id number is `= 0`; of a string, `= ""`;
  of an optional field, `none` or `some ""`.
* A `Blob` is modelled by its byte size (`audioBlob : Option Nat`).
* `String.prototype.toLowerCase`, `trim` and `includes` are modelled by
  the char-list functions `jsToLower`, `jsTrim` and `jsIncludes` below.
* Floating-point derived statistics (`totalStorageMB`,
  `averageRecordingSize`) are not modelled; no claim mentions them.
-/

deriving instance DecidableEq for Except

namespace ParkinsonWebTest

/-! ## JavaScript string primitives -/

/-- Models `String.prototype.toLowerCase`, on the ASCII range (per-character
lowercasing).  Implemented over the char list so that it evaluates inside
the kernel. -/
def jsToLower (s : String) : String := ⟨s.toList.map Char.toLower⟩

/-- Models `String.prototype.trim`: strip whitespace from both ends.  Implemented
over the char list so that it evaluates inside the kernel. -/
def jsTrim (s : String) : String :=
  ⟨((s.toList.dropWhile Char.isWhitespace).reverse.dropWhile
      Char.isWhitespace).reverse⟩

/-- Is `needle` a contiguous prefix of `hay`? -/
def charsStartWith : List Char → List Char → Bool
  | [], _ => true
  | _ :: _, [] => false
  | a :: as, b :: bs => a == b && charsStartWith as bs

/-- Is `needle` a contiguous run somewhere inside `hay`? -/
def charsContain (needle : List Char) : List Char → Bool
  | [] => charsStartWith needle []
  | b :: bs => charsStartWith needle (b :: bs) || charsContain needle bs

/-- Models `hay.includes(needle)` of JavaScript. -/
def jsIncludes (hay needle : String) : Bool :=
  charsContain needle.toList hay.toList

/-! ## Stable sorting

`Array.prototype.sort(comparator)` is a stable sort by the comparator.
It is modelled by a stable insertion sort written with plain structural
recursion, so that it evaluates inside the kernel on concrete stores. -/

/-- Insert `a` into `l` before the first element `b` with `le a b`. -/
def insertBy {α : Type} (le : α → α → Bool) (a : α) : List α → List α
  | [] => [a]
  | b :: bs => if le a b then a :: b :: bs else b :: insertBy le a bs

/-- Stable insertion sort by the boolean `le`. -/
def sortBy {α : Type} (le : α → α → Bool) : List α → List α
  | [] => []
  | x :: xs => insertBy le x (sortBy le xs)

theorem insertBy_perm {α : Type} (le : α → α → Bool) (a : α)
    (l : List α) : (insertBy le a l).Perm (a :: l) := by
  induction l with
  | nil => exact List.Perm.refl _
  | cons b bs ih =>
    unfold insertBy
    split
    · exact List.Perm.refl _
    · exact (ih.cons b).trans (List.Perm.swap a b bs)

theorem sortBy_perm {α : Type} (le : α → α → Bool) (l : List α) :
    (sortBy le l).Perm l := by
  induction l with
  | nil => exact List.Perm.refl _
  | cons x xs ih =>
    exact (insertBy_perm le x (sortBy le xs)).trans (ih.cons x)

theorem mem_insertBy {α : Type} {le : α → α → Bool} {a x : α}
    {l : List α} (h : x ∈ insertBy le a l) : x = a ∨ x ∈ l :=
  List.mem_cons.mp ((insertBy_perm le a l).mem_iff.mp h)

theorem pairwise_insertBy {α : Type} {le : α → α → Bool}
    (htrans : ∀ a b c, le a b = true → le b c = true → le a c = true)
    (htot : ∀ a b, (le a b || le b a) = true)
    (a : α) {l : List α} (h : l.Pairwise (fun x y => le x y = true)) :
    (insertBy le a l).Pairwise (fun x y => le x y = true) := by
  induction l with
  | nil => simp [insertBy]
  | cons b bs ih =>
    rcases List.pairwise_cons.mp h with ⟨hb, hbs⟩
    unfold insertBy
    split
    case isTrue hab =>
      refine List.pairwise_cons.mpr ⟨?_, h⟩
      intro y hy
      rcases List.mem_cons.mp hy with rfl | hy
      · exact hab
      · exact htrans a b y hab (hb y hy)
    case isFalse hab =>
      have hba : le b a = true := by
        rcases Bool.or_eq_true_iff.mp (htot a b) with h1 | h1
        · exact absurd h1 hab
        · exact h1
      refine List.pairwise_cons.mpr ⟨?_, ih hbs⟩
      intro y hy
      rcases mem_insertBy hy with rfl | hy
      · exact hba
      · exact hb y hy

theorem pairwise_sortBy {α : Type} {le : α → α → Bool}
    (htrans : ∀ a b c, le a b = true → le b c = true → le a c = true)
    (htot : ∀ a b, (le a b || le b a) = true) (l : List α) :
    (sortBy le l).Pairwise (fun x y => le x y = true) := by
  induction l with
  | nil => simp [sortBy]
  | cons x xs ih => exact pairwise_insertBy htrans htot x ih

/-! ## Data model (§3 of the spec; record shapes written by database.js) -/

/-- A stored patient record, as written by `addPatient` / `updatePatient`
in `src/src/services/database.js`. -/
structure Patient where
  id : Nat
  firstName : String
  lastName : String
  dateOfBirth : Option String := none
  gender : Option String := none
  email : Option String := none
  phone : Option String := none
  medicalHistory : Option String := none
  createdAt : Nat := 0
  updatedAt : Nat := 0
deriving Repr, DecidableEq

/-- A stored recording record, as written by `addRecording`. -/
structure Recording where
  id : Nat
  patientId : Nat
  dateTime : Nat := 0
  audioBlob : Option Nat := none
  duration : Nat := 0
  mimeType : String := "audio/wav"
  fileSize : Nat := 0
  createdAt : Nat := 0
deriving Repr, DecidableEq

/-- A stored test assignment (extended prototype; application-generated
string key). -/
structure TestAssignment where
  id : String
  patientId : Nat
  testIds : List String := []
  createdAt : Nat := 0
deriving Repr, DecidableEq

/-- The state of the local database: the three object stores created by
`createTables`, plus the IndexedDB key generators of the two
auto-increment stores. -/
structure DB where
  patients : List Patient := []
  recordings : List Recording := []
  assignments : List TestAssignment := []
  nextPatientId : Nat := 1
  nextRecordingId : Nat := 1
deriving Repr, DecidableEq

/-- A freshly created (upgraded) database: all collections empty. -/
def emptyDB : DB := {}

/-! ## Operation inputs -/

/-- The `patientData` argument of `addPatient`.  A missing (`undefined`)
name field and the empty string are both falsy, so a missing name is
modelled as `""`. -/
structure PatientInput where
  firstName : String := ""
  lastName : String := ""
  dateOfBirth : Option String := none
  gender : Option String := none
  email : Option String := none
  phone : Option String := none
  medicalHistory : Option String := none
deriving Repr, DecidableEq

/-- The `recordingData` argument of `addRecording`. -/
structure RecordingInput where
  patientId : Nat := 0
  audioBlob : Option Nat := none
  dateTime : Option Nat := none
  duration : Option Nat := none
  mimeType : Option String := none
  fileSize : Option Nat := none
deriving Repr, DecidableEq

/-- The `searchCriteria` argument of `searchPatients`. -/
structure SearchCriteria where
  firstName : Option String := none
  lastName : Option String := none
  dateOfBirth : Option String := none
  limit : Option Nat := none
deriving Repr, DecidableEq

/-- Models `x || null` on an optional string field: falsy values become null. -/
def orNull (o : Option String) : Option String :=
  match o with
  | some s => if s = "" then none else some s
  | none => none

/-! ## Patient operations (database.js lines 122–283) -/

/-- The operation `addPatient(patientData)` (database.js 122–148): rejects when
`firstName` or `lastName` is falsy; otherwise stores the patient with
trimmed names, falsy optional fields nulled, and `createdAt`/`updatedAt`
stamped `now`, under the next generated key.  Resolves with the new key. -/
def addPatient (db : DB) (patientData : PatientInput) (now : Nat) :
    Except String (Nat × DB) :=
  if patientData.firstName = "" || patientData.lastName = "" then
    .error "Patient data must include firstName and lastName"
  else
    let patient : Patient :=
      { id := db.nextPatientId
        firstName := jsTrim patientData.firstName
        lastName := jsTrim patientData.lastName
        dateOfBirth := orNull patientData.dateOfBirth
        gender := orNull patientData.gender
        email := orNull patientData.email
        phone := orNull patientData.phone
        medicalHistory := orNull patientData.medicalHistory
        createdAt := now
        updatedAt := now }
    .ok (db.nextPatientId,
      { db with
          patients := db.patients ++ [patient]
          nextPatientId := db.nextPatientId + 1 })

/-- The operation `getPatient(patientId)` (database.js 150–164): rejects on a falsy id;
otherwise resolves `request.result || null`, i.e. the stored record with
that key, or `none` when the store has no such key. -/
def getPatient (db : DB) (patientId : Nat) :
    Except String (Option Patient) :=
  if patientId = 0 then
    .error "Patient ID is required"
  else
    .ok (db.patients.find? (fun p => p.id == patientId))

/-- IndexedDB `store.put` on the patients store: replace the record with
the same key, or insert; an explicit key at or above the generator bumps
the generator past it. -/
def putPatient (db : DB) (p : Patient) : DB :=
  { db with
      patients :=
        if db.patients.any (fun q => q.id == p.id) then
          db.patients.map (fun q => if q.id == p.id then p else q)
        else
          db.patients ++ [p]
      nextPatientId := max db.nextPatientId (p.id + 1) }

/-- The operation `updatePatient(patientData)` (database.js 166–186): rejects when the
record's `id` is falsy; otherwise stamps `updatedAt := now` and `put`s the
whole record (full overwrite; `put` inserts when the key is absent). -/
def updatePatient (db : DB) (patientData : Patient) (now : Nat) :
    Except String DB :=
  if patientData.id = 0 then
    .error "Patient data must include an ID"
  else
    .ok (putPatient db { patientData with updatedAt := now })

/-- The operation `deletePatient(patientId)` (database.js 188–225): rejects on a falsy
id; otherwise, in one readwrite transaction over both stores, deletes
every recording whose `patientId` equals the id, then the patient record
itself. -/
def deletePatient (db : DB) (patientId : Nat) : Except String DB :=
  if patientId = 0 then
    .error "Patient ID is required"
  else
    .ok { db with
            recordings :=
              db.recordings.filter (fun r => !(r.patientId == patientId))
            patients :=
              db.patients.filter (fun p => !(p.id == patientId)) }

/-- The comparison `(a, b) => new Date(b.createdAt) - new Date(a.createdAt)`
used to sort patients newest-created first, as a stable `le`. -/
def patientNewerFirst (a b : Patient) : Bool := b.createdAt ≤ a.createdAt

/-- The operation `searchPatients(searchCriteria)` (database.js 227–266): load the whole
patients store, filter by lowercased-and-trimmed first-name term, then by
last-name term, then by exact date-of-birth (each only when the criteria
field is truthy), sort newest-created first, and keep the first
`limit` (default 100) results. -/
def searchPatients (db : DB) (searchCriteria : SearchCriteria) :
    List Patient :=
  let l0 := db.patients
  let l1 :=
    match searchCriteria.firstName with
    | some t =>
        if t = "" then l0
        else
          l0.filter (fun p =>
            jsIncludes (jsToLower p.firstName) (jsTrim (jsToLower t)))
    | none => l0
  let l2 :=
    match searchCriteria.lastName with
    | some t =>
        if t = "" then l1
        else
          l1.filter (fun p =>
            jsIncludes (jsToLower p.lastName) (jsTrim (jsToLower t)))
    | none => l1
  let l3 :=
    match searchCriteria.dateOfBirth with
    | some d =>
        if d = "" then l2
        else l2.filter (fun p => p.dateOfBirth == some d)
    | none => l2
  (sortBy patientNewerFirst l3).take (searchCriteria.limit.getD 100)

/-- The operation `getAllPatients()` (database.js 268–283): the whole patients store,
sorted newest-created first. -/
def getAllPatients (db : DB) : List Patient :=
  sortBy patientNewerFirst db.patients

/-! ## Recording operations (database.js 287–387) -/

/-- The operation `addRecording(recordingData)` (database.js 287–312): rejects when
`patientId` or `audioBlob` is falsy; otherwise stores the recording with
`dateTime := now` when absent/falsy, defaulted duration and MIME type,
`fileSize` defaulting to the blob's size, and `createdAt := now`, under
the next generated key.  Resolves with the new key. -/
def addRecording (db : DB) (recordingData : RecordingInput) (now : Nat) :
    Except String (Nat × DB) :=
  if recordingData.patientId = 0 || recordingData.audioBlob.isNone then
    .error "Recording data must include patientId and audioBlob"
  else
    let recording : Recording :=
      { id := db.nextRecordingId
        patientId := recordingData.patientId
        dateTime :=
          match recordingData.dateTime with
          | some t => if t = 0 then now else t
          | none => now
        audioBlob := recordingData.audioBlob
        duration := recordingData.duration.getD 0
        mimeType :=
          match recordingData.mimeType with
          | some m => if m = "" then "audio/wav" else m
          | none => "audio/wav"
        fileSize :=
          match recordingData.fileSize with
          | some s => if s = 0 then recordingData.audioBlob.getD 0 else s
          | none => recordingData.audioBlob.getD 0
        createdAt := now }
    .ok (db.nextRecordingId,
      { db with
          recordings := db.recordings ++ [recording]
          nextRecordingId := db.nextRecordingId + 1 })

/-- The operation `getRecording(recordingId)` (database.js 314–328): rejects on a falsy
id; otherwise resolves the stored record or `none`. -/
def getRecording (db : DB) (recordingId : Nat) :
    Except String (Option Recording) :=
  if recordingId = 0 then
    .error "Recording ID is required"
  else
    .ok (db.recordings.find? (fun r => r.id == recordingId))

/-- The comparator of `getPatientRecordings`: descending by `dateTime`
when `sortOrder === 'desc'`, ascending otherwise, as a stable `le`. -/
def recordingOrder (sortOrder : String) (a b : Recording) : Bool :=
  if sortOrder = "desc" then b.dateTime ≤ a.dateTime
  else a.dateTime ≤ b.dateTime

/-- The operation `getPatientRecordings(patientId, sortOrder)` (database.js
330–354): rejects on a falsy id; otherwise resolves all recordings whose
`patientId` equals the id, sorted by `dateTime` per the requested order. -/
def getPatientRecordings (db : DB) (patientId : Nat)
    (sortOrder : String := "desc") : Except String (List Recording) :=
  if patientId = 0 then
    .error "Patient ID is required"
  else
    .ok (sortBy (recordingOrder sortOrder)
          (db.recordings.filter (fun r => r.patientId == patientId)))

/-- The operation `deleteRecording(recordingId)` (database.js 356–370): rejects on a
falsy id; otherwise deletes the record with that key. -/
def deleteRecording (db : DB) (recordingId : Nat) : Except String DB :=
  if recordingId = 0 then
    .error "Recording ID is required"
  else
    .ok { db with
            recordings :=
              db.recordings.filter (fun r => !(r.id == recordingId)) }

/-- The comparator of `getAllRecordings`: newest `dateTime` first. -/
def recordingNewerFirst (a b : Recording) : Bool := b.dateTime ≤ a.dateTime

/-- The operation `getAllRecordings()` (database.js 372–387): the whole recordings
store, sorted newest first by `dateTime`. -/
def getAllRecordings (db : DB) : List Recording :=
  sortBy recordingNewerFirst db.recordings

/-- The operation `addTestAssignment(assignmentData)` (database.js 390–404): stores the
assignment under its application-generated string key.  (The falsy-data
guard is not modelled: the argument is a record by typing.) -/
def addTestAssignment (db : DB) (assignmentData : TestAssignment) : DB :=
  { db with assignments := db.assignments ++ [assignmentData] }

/-! ## Utility operations (database.js 409–474) -/

/-- The operation `clearDatabase()` (database.js 409–440): one readwrite transaction
clearing the patients store and the recordings store.  The
`test-assignments` store is not part of the transaction.  (IndexedDB
`clear` does not reset key generators.) -/
def clearDatabase (db : DB) : DB :=
  { db with patients := [], recordings := [] }

/-- The helper `calculateStorageSize(recordings)` (database.js 470–474): sum of the
`fileSize` fields. -/
def calculateStorageSize (recordings : List Recording) : Nat :=
  recordings.foldl (fun total r => total + r.fileSize) 0

/-- The statistics object of `getDatabaseStats` (floating-point derived
fields omitted). -/
structure Stats where
  totalPatients : Nat
  totalRecordings : Nat
  totalStorageBytes : Nat
  oldestPatient : Option Patient
  newestPatient : Option Patient
deriving Repr, DecidableEq

/-- Models `patients.reduce(...)`: the running
reduce of `getDatabaseStats` for the oldest patient. -/
def reduceOldest : List Patient → Option Patient
  | [] => none
  | x :: xs =>
      some (xs.foldl
        (fun oldest p => if p.createdAt < oldest.createdAt then p else oldest) x)

/-- The running reduce of `getDatabaseStats` for the newest patient. -/
def reduceNewest : List Patient → Option Patient
  | [] => none
  | x :: xs =>
      some (xs.foldl
        (fun newest p => if newest.createdAt < p.createdAt then p else newest) x)

/-- The operation `getDatabaseStats()` (database.js 442–468): counts, total payload
bytes over all recordings, and the oldest/newest patient by `createdAt`
(`null` on an empty patients store). -/
def getDatabaseStats (db : DB) : Stats :=
  let patients := getAllPatients db
  let recordings := getAllRecordings db
  let totalSize := calculateStorageSize recordings
  { totalPatients := patients.length
    totalRecordings := recordings.length
    totalStorageBytes := totalSize
    oldestPatient := reduceOldest patients
    newestPatient := reduceNewest patients }

/-! ## Voice-capture timing state machine (the `VoiceRecorder` class)

Only the recording-state flags and the wall-clock duration accounting are
embedded; media, DOM and timer side effects are outside the state the
claims speak about.  `Date.now()` values are passed in as the `now`
argument of each transition. -/

/-- The recorder's timing state: `mediaRecorder` presence, the
`isRecording`/`isPaused` flags, and the `startTime`/`pausedDuration`/
`recordingDuration` accumulators. -/
structure RecorderState where
  hasRecorder : Bool := false
  isRecording : Bool := false
  isPaused : Bool := false
  startTime : Int := 0
  pausedDuration : Int := 0
  recordingDuration : Int := 0
deriving Repr, DecidableEq

/-- The recorder before any capture: idle, no media recorder. -/
def recorderInit : RecorderState := {}

/-- The state updates of the success path of `startRecording` (part_000
100–108): a recorder now exists, `isRecording := true`,
`isPaused := false`, `startTime := Date.now()`, `pausedDuration := 0`. -/
def startRecording (s : RecorderState) (now : Int) : RecorderState :=
  { s with
      hasRecorder := true
      isRecording := true
      isPaused := false
      startTime := now
      pausedDuration := 0 }

/-- The transition `pauseRecording()` (part_000 130–139): guarded on a live recorder in
the recording, non-paused state; accumulates the elapsed recording
interval into `pausedDuration`. -/
def pauseRecording (s : RecorderState) (now : Int) : RecorderState :=
  if s.hasRecorder && s.isRecording && !s.isPaused then
    { s with
        isPaused := true
        pausedDuration := s.pausedDuration + (now - s.startTime) }
  else s

/-- The transition `resumeRecording()` (part_000 141–150): guarded on a live recorder in
the recording, paused state; restarts the interval clock. -/
def resumeRecording (s : RecorderState) (now : Int) : RecorderState :=
  if s.hasRecorder && s.isRecording && s.isPaused then
    { s with
        isPaused := false
        startTime := now }
  else s

/-- The transition `stopRecording()` (part_000 152–177): guarded on a live recorder in
the recording state; the final duration is
`Date.now() - startTime + pausedDuration`. -/
def stopRecording (s : RecorderState) (now : Int) : RecorderState :=
  if s.hasRecorder && s.isRecording then
    { s with
        isRecording := false
        isPaused := false
        recordingDuration := now - s.startTime + s.pausedDuration }
  else s

/-! ## Claim C9: pause/resume duration accounting -/

/-- Claim C9: a capture session idle→recording→paused→recording→stopped
computes, at stop, a duration equal to the sum of the two recording-state
wall-clock intervals (`t1 - t0` and `t3 - t2`), excluding the paused
interval `t2 - t1`. -/
theorem c9_pause_resume_duration (t0 t1 t2 t3 : Int) :
    (stopRecording (resumeRecording (pauseRecording
        (startRecording recorderInit t0) t1) t2) t3).recordingDuration =
      (t1 - t0) + (t3 - t2) := by
  simp only [recorderInit, startRecording, pauseRecording, resumeRecording,
    stopRecording]
  norm_num
  omega

/-! ## Claim C10: falsy-id guards -/

/-- Claim C10: for the falsy identifier `0`, the lookup and delete
operations reject with an "ID is required" error whatever the store
contents — in particular nothing stored under key 0 can be retrieved or
deleted through them, and the store is never touched (the error result
carries no store state). -/
theorem c10_falsy_id_guards (db : DB) (sortOrder : String) :
    getPatient db 0 = .error "Patient ID is required" ∧
    getRecording db 0 = .error "Recording ID is required" ∧
    getPatientRecordings db 0 sortOrder = .error "Patient ID is required" ∧
    deletePatient db 0 = .error "Patient ID is required" ∧
    deleteRecording db 0 = .error "Recording ID is required" := by
  simp [getPatient, getRecording, getPatientRecordings, deletePatient,
    deleteRecording]

/-! ## Claim C1: getPatient on a missing id -/

/-- Claim C1, counterexample: on the empty store — which contains no
patient with identifier 0 — `getPatient 0` rejects with an error instead
of resolving with the "not found" value, so the claim's "for every id,
never rejects" fails at id 0. -/
theorem c1_cex_zero_id_rejects :
    getPatient emptyDB 0 ≠ .ok none ∧
    getPatient emptyDB 0 = .error "Patient ID is required" := by decide

/-- Claim C1 (amended): for every nonzero (truthy) identifier, calling
`getPatient` on a store containing no patient with that identifier
resolves with the explicit "not found" value `none` and does not
reject. -/
theorem c1_get_missing_patient (db : DB) (patientId : Nat)
    (hid : patientId ≠ 0)
    (hmiss : ∀ p ∈ db.patients, p.id ≠ patientId) :
    getPatient db patientId = .ok none := by
  have hfind : db.patients.find? (fun p => p.id == patientId) = none :=
    List.find?_eq_none.mpr (fun p hp => by simp [hmiss p hp])
  simp [getPatient, hid, hfind]

/-- Witness for the amended C1 at a concrete store and identifier. -/
theorem c1_get_missing_patient_witness :
    getPatient emptyDB 7 = .ok none :=
  c1_get_missing_patient emptyDB 7 (by decide)
    (by intro p hp; simp [emptyDB] at hp)

/-! ## Claim C5: clearDatabase -/

/-- A concrete test assignment, for the C5 counterexample. -/
def asgC5 : TestAssignment :=
  { id := "ASSIGNMENT-1", patientId := 1, testIds := ["voice"],
    createdAt := 50 }

/-- Claim C5, counterexample: after `clearDatabase` on a store holding
one test assignment, the test-assignments collection still holds it —
`clearDatabase` clears only the patients and recordings stores, so "every
collection of the store is empty" fails. -/
theorem c5_cex_assignments_survive_clear :
    (clearDatabase (addTestAssignment emptyDB asgC5)).assignments =
      [asgC5] := by decide

/-- Claim C5 (amended): after `clearDatabase`, the patients collection
and the recordings collection are empty; the test-assignments collection
is left untouched. -/
theorem c5_clear_patients_recordings (db : DB) :
    (clearDatabase db).patients = [] ∧
    (clearDatabase db).recordings = [] ∧
    (clearDatabase db).assignments = db.assignments := by
  simp [clearDatabase]

/-! ## Claim C8: updatePatient -/

/-- Looking up a key in a list where every in-place occurrence of that
key was just replaced by `p` finds `p`, provided the key occurs. -/
theorem find?_map_replace (p : Patient) (l : List Patient)
    (h : l.any (fun q => q.id == p.id) = true) :
    (l.map (fun q => if q.id == p.id then p else q)).find?
      (fun q => q.id == p.id) = some p := by
  induction l with
  | nil => simp at h
  | cons x xs ih =>
    by_cases hx : x.id = p.id
    · simp [hx]
    · have hxs : xs.any (fun q => q.id == p.id) = true := by
        simpa [hx] using h
      simpa [hx] using ih hxs

/-- Looking up a key that is fresh for `l` in `l ++ [p]` finds the
appended record `p`. -/
theorem find?_append_fresh (p : Patient) (l : List Patient)
    (h : ∀ q ∈ l, q.id ≠ p.id) :
    (l ++ [p]).find? (fun q => q.id == p.id) = some p := by
  induction l with
  | nil => simp
  | cons x xs ih =>
    have hx : x.id ≠ p.id := h x (by simp)
    have hxs : ∀ q ∈ xs, q.id ≠ p.id := fun q hq => h q (by simp [hq])
    simpa [hx] using ih hxs

/-- After an IndexedDB `put`, the record looked up under the put key is
exactly the record that was put (replaced in place when the key existed,
appended when it did not). -/
theorem putPatient_find (db : DB) (p : Patient) :
    (putPatient db p).patients.find? (fun q => q.id == p.id) = some p := by
  unfold putPatient
  by_cases hany : db.patients.any (fun q => q.id == p.id) = true
  · simpa [hany] using find?_map_replace p db.patients hany
  · have hfresh : ∀ q ∈ db.patients, q.id ≠ p.id := by
      intro q hq hcon
      exact hany (List.any_eq_true.mpr ⟨q, hq, by simp [hcon]⟩)
    simpa [hany] using find?_append_fresh p db.patients hfresh

/-- A concrete patient record whose identifier is absent from the empty
store, for the C8 counterexample. -/
def pC8 : Patient :=
  { id := 5, firstName := "Eve", lastName := "Stone", createdAt := 10,
    updatedAt := 10 }

/-- Claim C8, counterexample: on the empty store — where no patient with
identifier 5 exists — `updatePatient` of a record with id 5 resolves
successfully and inserts the record, instead of rejecting; so "rejects
unless the supplied record carries an existing … identifier" fails. -/
theorem c8_cex_upsert_missing_id :
    emptyDB.patients = [] ∧
    updatePatient emptyDB pC8 99 =
      .ok { patients := [{ pC8 with updatedAt := 99 }],
            nextPatientId := 6 } := by decide

/-- Claim C8 (amended): `updatePatient` rejects exactly when the supplied
record's identifier is falsy (zero) — it does not require the identifier
to already exist in the store.  On a nonzero identifier it stamps the
update timestamp and `put`s the supplied record wholesale: the stored
patient under that identifier afterwards is exactly the supplied record
with `updatedAt` restamped (full overwrite, inserted when absent; no
partial merge at the store layer). -/
theorem c8_update_full_overwrite (db : DB) (p : Patient) (now : Nat) :
    (p.id = 0 →
      updatePatient db p now = .error "Patient data must include an ID") ∧
    (p.id ≠ 0 →
      updatePatient db p now =
        .ok (putPatient db { p with updatedAt := now }) ∧
      (putPatient db { p with updatedAt := now }).patients.find?
          (fun q => q.id == p.id) = some { p with updatedAt := now }) := by
  constructor
  · intro hid
    simp [updatePatient, hid]
  · intro hid
    exact ⟨by simp [updatePatient, hid],
      putPatient_find db { p with updatedAt := now }⟩

/-- A record with the falsy identifier 0, for the rejection side of the
C8 witness. -/
def pC8zero : Patient := { id := 0, firstName := "Zed", lastName := "Null" }

/-- Witness for the amended C8 at concrete stores and records: a zero-id
record is rejected, and a nonzero-id record absent from the store is
upserted with `updatedAt` restamped. -/
theorem c8_update_full_overwrite_witness :
    updatePatient emptyDB pC8zero 99 =
      .error "Patient data must include an ID" ∧
    (updatePatient emptyDB pC8 99 =
        .ok (putPatient emptyDB { pC8 with updatedAt := 99 }) ∧
      (putPatient emptyDB { pC8 with updatedAt := 99 }).patients.find?
          (fun q => q.id == pC8.id) = some { pC8 with updatedAt := 99 }) ∧
    (putPatient emptyDB { pC8 with updatedAt := 99 }).patients =
      [{ pC8 with updatedAt := 99 }] :=
  ⟨(c8_update_full_overwrite emptyDB pC8zero 99).1 (by decide),
   (c8_update_full_overwrite emptyDB pC8 99).2 (by decide), by decide⟩

/-! ## Claim C2: deletePatient cascades to the recordings -/

/-- Claim C2: for every nonzero patient identifier (store-assigned
identifiers start at 1), `deletePatient` resolves in one readwrite
transaction — modelled as one state transition — deleting every recording
whose patient reference equals the id together with the patient record,
leaving every other record in place; a subsequent `getPatientRecordings`
for that id resolves with the empty result. -/
theorem c2_delete_patient_cascade (db : DB) (patientId : Nat)
    (sortOrder : String) (hid : patientId ≠ 0) :
    deletePatient db patientId =
      .ok { db with
              recordings :=
                db.recordings.filter (fun r => !(r.patientId == patientId))
              patients :=
                db.patients.filter (fun p => !(p.id == patientId)) } ∧
    ∀ db2, deletePatient db patientId = .ok db2 →
      (∀ r ∈ db2.recordings, r.patientId ≠ patientId) ∧
      (∀ p ∈ db2.patients, p.id ≠ patientId) ∧
      getPatientRecordings db2 patientId sortOrder = .ok [] := by
  constructor
  · simp [deletePatient, hid]
  · intro db2 h2
    simp only [deletePatient, hid, if_false, ite_false, if_neg,
      Except.ok.injEq] at h2
    subst h2
    refine ⟨?_, ?_, ?_⟩
    · intro r hr
      have := (List.mem_filter.mp hr).2
      simpa using this
    · intro p hp
      have := (List.mem_filter.mp hp).2
      simpa using this
    · simp [getPatientRecordings, hid, List.filter_filter, sortBy]

/-- Concrete records for the C2 witness. -/
def patC2a : Patient :=
  { id := 1, firstName := "Ann", lastName := "Lee", createdAt := 1 }

/-- Concrete records for the C2 witness. -/
def patC2b : Patient :=
  { id := 2, firstName := "Bob", lastName := "Ray", createdAt := 2 }

/-- Concrete records for the C2 witness. -/
def dbC2 : DB :=
  { patients := [patC2a, patC2b]
    recordings :=
      [{ id := 1, patientId := 1, dateTime := 10, audioBlob := some 4,
         fileSize := 4 },
       { id := 2, patientId := 1, dateTime := 20, audioBlob := some 6,
         fileSize := 6 },
       { id := 3, patientId := 2, dateTime := 30, audioBlob := some 8,
         fileSize := 8 }]
    nextPatientId := 3
    nextRecordingId := 4 }

/-- The store of `dbC2` after deleting patient 1. -/
def dbC2deleted : DB :=
  { patients := [patC2b]
    recordings :=
      [{ id := 3, patientId := 2, dateTime := 30, audioBlob := some 8,
         fileSize := 8 }]
    nextPatientId := 3
    nextRecordingId := 4 }

/-- Witness for C2 at a concrete store: deleting patient 1 removes both
of its recordings and the patient record, and the follow-up query is
empty. -/
theorem c2_delete_patient_cascade_witness :
    getPatientRecordings dbC2deleted 1 "desc" = .ok [] :=
  (((c2_delete_patient_cascade dbC2 1 "desc" (by decide)).2)
    dbC2deleted (by decide)).2.2

/-! ## Claim C7: getPatientRecordings is the sorted fiber of the id -/

/-- Claim C7: for every nonzero patient identifier (only nonzero ids can
have recordings: `addRecording` rejects a falsy patient reference),
`getPatientRecordings` resolves with exactly the stored recordings whose
patient reference equals the id — as a permutation of that fiber — sorted
by capture time descending when `"desc"` is requested and ascending
otherwise. -/
theorem c7_patient_recordings_sorted (db : DB) (patientId : Nat)
    (sortOrder : String) (hid : patientId ≠ 0) :
    ∃ l, getPatientRecordings db patientId sortOrder = .ok l ∧
      l.Perm (db.recordings.filter (fun r => r.patientId == patientId)) ∧
      (sortOrder = "desc" →
        l.Pairwise (fun a b => b.dateTime ≤ a.dateTime)) ∧
      (sortOrder ≠ "desc" →
        l.Pairwise (fun a b => a.dateTime ≤ b.dateTime)) := by
  have htrans : ∀ a b c : Recording, recordingOrder sortOrder a b = true →
      recordingOrder sortOrder b c = true →
      recordingOrder sortOrder a c = true := by
    intro a b c
    unfold recordingOrder
    split <;> (intro h1 h2; simp only [decide_eq_true_eq] at *; omega)
  have htot : ∀ a b : Recording,
      (recordingOrder sortOrder a b || recordingOrder sortOrder b a) = true := by
    intro a b
    unfold recordingOrder
    split <;> (simp only [Bool.or_eq_true, decide_eq_true_eq]; omega)
  have hs := pairwise_sortBy htrans htot
    (db.recordings.filter (fun r => r.patientId == patientId))
  refine ⟨sortBy (recordingOrder sortOrder)
      (db.recordings.filter (fun r => r.patientId == patientId)),
    by simp [getPatientRecordings, hid], sortBy_perm _ _, ?_, ?_⟩
  · intro hdesc
    exact hs.imp (fun hab => by simpa [recordingOrder, hdesc] using hab)
  · intro hdesc
    exact hs.imp (fun hab => by simpa [recordingOrder, hdesc] using hab)

/-- Concrete store for the C7 witness: patient 1 owns two recordings,
listed newest first. -/
def dbC7 : DB :=
  { patients := [{ id := 1, firstName := "Ann", lastName := "Lee",
                   createdAt := 1 }]
    recordings :=
      [{ id := 1, patientId := 1, dateTime := 50, audioBlob := some 4,
         fileSize := 4 },
       { id := 2, patientId := 2, dateTime := 60, audioBlob := some 6,
         fileSize := 6 },
       { id := 3, patientId := 1, dateTime := 20, audioBlob := some 8,
         fileSize := 8 }]
    nextPatientId := 2
    nextRecordingId := 4 }

/-- Witness for C7 at a concrete store: the ascending query returns
exactly patient 1's two recordings, oldest capture first. -/
theorem c7_patient_recordings_sorted_witness :
    (∃ l, getPatientRecordings dbC7 1 "asc" = .ok l ∧
      l.Perm (dbC7.recordings.filter (fun r => r.patientId == 1)) ∧
      ("asc" = "desc" → l.Pairwise (fun a b => b.dateTime ≤ a.dateTime)) ∧
      ("asc" ≠ "desc" →
        l.Pairwise (fun a b => a.dateTime ≤ b.dateTime))) ∧
    getPatientRecordings dbC7 1 "asc" =
      .ok [{ id := 3, patientId := 1, dateTime := 20, audioBlob := some 8,
             fileSize := 8 },
           { id := 1, patientId := 1, dateTime := 50, audioBlob := some 4,
             fileSize := 4 }] :=
  ⟨c7_patient_recordings_sorted dbC7 1 "asc" (by decide), by decide⟩

/-! ## Claim C4: addPatient then getPatient -/

/-- Claim C4, counterexample: `addPatient` stores the names trimmed, so
after submitting a first name with surrounding whitespace the record
`getPatient` returns does not carry the submitted field verbatim —
"matching submitted fields" fails as stated. -/
theorem c4_cex_trimmed_name :
    addPatient emptyDB { firstName := " Ann ", lastName := "Lee" } 100 =
      .ok (1,
        { patients := [{ id := 1, firstName := "Ann", lastName := "Lee",
                         createdAt := 100, updatedAt := 100 }],
          nextPatientId := 2 }) ∧
    getPatient
        { patients := [{ id := 1, firstName := "Ann", lastName := "Lee",
                         createdAt := 100, updatedAt := 100 }],
          nextPatientId := 2 } 1 =
      .ok (some { id := 1, firstName := "Ann", lastName := "Lee",
                  createdAt := 100, updatedAt := 100 }) ∧
    "Ann" ≠ " Ann " := by decide

/-- Claim C4 (amended): `addPatient` rejects exactly when the first or
the last name is falsy; otherwise it resolves with the store-generated
identifier, and `getPatient` of that identifier immediately afterwards
returns a record with a populated creation timestamp (the clock value at
the call) and the submitted fields, the names stored trimmed and falsy
optional fields stored as null.  The two store-generator hypotheses are
the IndexedDB key-generator invariants (the generator starts at 1 and
stays above every stored key). -/
theorem c4_add_patient_roundtrip (db : DB) (d : PatientInput) (now : Nat)
    (hgen : db.nextPatientId ≠ 0)
    (hfresh : ∀ p ∈ db.patients, p.id < db.nextPatientId) :
    (d.firstName = "" ∨ d.lastName = "" →
      addPatient db d now =
        .error "Patient data must include firstName and lastName") ∧
    (d.firstName ≠ "" → d.lastName ≠ "" →
      ∃ db2, addPatient db d now = .ok (db.nextPatientId, db2) ∧
        getPatient db2 db.nextPatientId =
          .ok (some
            { id := db.nextPatientId
              firstName := jsTrim d.firstName
              lastName := jsTrim d.lastName
              dateOfBirth := orNull d.dateOfBirth
              gender := orNull d.gender
              email := orNull d.email
              phone := orNull d.phone
              medicalHistory := orNull d.medicalHistory
              createdAt := now
              updatedAt := now })) := by
  constructor
  · intro h
    rcases h with h | h <;> simp [addPatient, h]
  · intro h1 h2
    refine ⟨{ db with
        patients := db.patients ++
          [{ id := db.nextPatientId
             firstName := jsTrim d.firstName
             lastName := jsTrim d.lastName
             dateOfBirth := orNull d.dateOfBirth
             gender := orNull d.gender
             email := orNull d.email
             phone := orNull d.phone
             medicalHistory := orNull d.medicalHistory
             createdAt := now
             updatedAt := now }]
        nextPatientId := db.nextPatientId + 1 }, by simp [addPatient, h1, h2],
      ?_⟩
    have hfind := find?_append_fresh
      { id := db.nextPatientId
        firstName := jsTrim d.firstName
        lastName := jsTrim d.lastName
        dateOfBirth := orNull d.dateOfBirth
        gender := orNull d.gender
        email := orNull d.email
        phone := orNull d.phone
        medicalHistory := orNull d.medicalHistory
        createdAt := now
        updatedAt := now }
      db.patients (fun q hq => Nat.ne_of_lt (hfresh q hq))
    simp only [getPatient, hgen, if_false, ite_false, if_neg]
    · exact congrArg Except.ok hfind

/-- Witness for the amended C4: a concrete submission on the empty store
round-trips through `getPatient` with the creation timestamp populated. -/
theorem c4_add_patient_roundtrip_witness :
    ∃ db2,
      addPatient emptyDB
          { firstName := "Ann", lastName := "Lee",
            dateOfBirth := some "1970-01-01", gender := some "F" } 100 =
        .ok (emptyDB.nextPatientId, db2) ∧
      getPatient db2 emptyDB.nextPatientId =
        .ok (some
          { id := 1, firstName := "Ann", lastName := "Lee",
            dateOfBirth := some "1970-01-01", gender := some "F",
            createdAt := 100, updatedAt := 100 }) :=
  (c4_add_patient_roundtrip emptyDB
      { firstName := "Ann", lastName := "Lee",
        dateOfBirth := some "1970-01-01", gender := some "F" } 100
      (by decide) (by intro p hp; simp [emptyDB] at hp)).2
    (by decide) (by decide)

/-! ## Claim C3: searchPatients -/

/-- The filter claim C3 literally states: each patient name contains the
given search term case-insensitively — the term taken verbatim, without
trimming — and the date of birth equals the given one when supplied. -/
def patientMatchesStated (c : SearchCriteria) (p : Patient) : Bool :=
  (match c.firstName with
   | some t =>
       if t = "" then true
       else jsIncludes (jsToLower p.firstName) (jsToLower t)
   | none => true) &&
  (match c.lastName with
   | some t =>
       if t = "" then true
       else jsIncludes (jsToLower p.lastName) (jsToLower t)
   | none => true) &&
  (match c.dateOfBirth with
   | some dv => if dv = "" then true else p.dateOfBirth == some dv
   | none => true)

/-- The filter the code applies: as the claim states it, except that each
name search term is lowercased and then trimmed before the containment
test, as `searchPatients` computes its `searchTerm`. -/
def patientMatches (c : SearchCriteria) (p : Patient) : Bool :=
  (match c.firstName with
   | some t =>
       if t = "" then true
       else jsIncludes (jsToLower p.firstName) (jsTrim (jsToLower t))
   | none => true) &&
  (match c.lastName with
   | some t =>
       if t = "" then true
       else jsIncludes (jsToLower p.lastName) (jsTrim (jsToLower t))
   | none => true) &&
  (match c.dateOfBirth with
   | some dv => if dv = "" then true else p.dateOfBirth == some dv
   | none => true)

/-- Concrete store and criteria for the C3 counterexample. -/
def patC3 : Patient :=
  { id := 1, firstName := "John", lastName := "Smith", createdAt := 5 }

/-- Concrete store and criteria for the C3 counterexample. -/
def dbC3 : DB := { patients := [patC3], nextPatientId := 2 }

/-- A first-name search term with surrounding whitespace. -/
def critC3 : SearchCriteria := { firstName := some " jo " }

/-- Claim C3, counterexample: for the search term `" jo "`, the code
returns the patient "John" although "john" does not contain `" jo "` —
the code trims the term, so the result is not "exactly the patients whose
first name contains the given firstName substring case-insensitively". -/
theorem c3_cex_untrimmed_term :
    searchPatients dbC3 critC3 = [patC3] ∧
    patientMatchesStated critC3 patC3 = false := by decide

/-- Helper for C3: the sequential conditional filters of `searchPatients`
fuse into the single predicate `patientMatches`. -/
theorem searchPatients_eq_filter (db : DB) (c : SearchCriteria) :
    searchPatients db c =
      (sortBy patientNewerFirst (db.patients.filter (patientMatches c))).take
        (c.limit.getD 100) := by
  obtain ⟨fn, ln, dob, lim⟩ := c
  unfold searchPatients patientMatches
  dsimp only
  congr 1
  cases fn <;> cases ln <;> cases dob <;> dsimp only <;> (try split_ifs) <;>
    simp_all [List.filter_filter]
  all_goals
    refine congrArg (sortBy patientNewerFirst)
      (List.filter_congr (fun a ha => ?_))
  all_goals simp [Bool.and_comm, Bool.and_left_comm, Bool.and_assoc]

/-- Claim C3 (amended): `searchPatients` returns exactly the stored
patients matched by the case-insensitive containment filters — with each
name term lowercased and trimmed first, as the code computes it — and the
optional exact date-of-birth filter, sorted newest-created first and
truncated to the requested limit (default 100). -/
theorem c3_search_patients_spec (db : DB) (c : SearchCriteria) :
    searchPatients db c =
      (sortBy patientNewerFirst (db.patients.filter (patientMatches c))).take
        (c.limit.getD 100) ∧
    (∀ p ∈ searchPatients db c,
      p ∈ db.patients ∧ patientMatches c p = true) ∧
    (searchPatients db c).Pairwise (fun a b => b.createdAt ≤ a.createdAt) ∧
    (searchPatients db c).length ≤ c.limit.getD 100 := by
  have heq := searchPatients_eq_filter db c
  refine ⟨heq, ?_, ?_, ?_⟩
  · intro p hp
    rw [heq] at hp
    have hp2 := List.take_subset _ _ hp
    have hp3 := (sortBy_perm patientNewerFirst _).mem_iff.mp hp2
    exact ⟨(List.mem_filter.mp hp3).1, (List.mem_filter.mp hp3).2⟩
  · rw [heq]
    have htrans : ∀ a b c2 : Patient, patientNewerFirst a b = true →
        patientNewerFirst b c2 = true → patientNewerFirst a c2 = true := by
      intro a b c2
      unfold patientNewerFirst
      simp only [decide_eq_true_eq]
      omega
    have htot : ∀ a b : Patient,
        (patientNewerFirst a b || patientNewerFirst b a) = true := by
      intro a b
      unfold patientNewerFirst
      simp only [Bool.or_eq_true, decide_eq_true_eq]
      omega
    have hs := pairwise_sortBy htrans htot
      (db.patients.filter (patientMatches c))
    exact (hs.imp (fun hab => by simpa [patientNewerFirst] using hab)).take
  · rw [heq]
    exact List.length_take_le _ _

/-! ## Claim C6: getDatabaseStats -/

/-- The running `reduce` for the oldest patient lands on a stored patient
of minimal creation time. -/
theorem foldl_oldest (l : List Patient) (x : Patient) :
    l.foldl (fun oldest p =>
        if p.createdAt < oldest.createdAt then p else oldest) x ∈ x :: l ∧
    ∀ q ∈ x :: l,
      (l.foldl (fun oldest p =>
        if p.createdAt < oldest.createdAt then p else oldest) x).createdAt ≤
        q.createdAt := by
  induction l generalizing x with
  | nil => simp
  | cons a as ih =>
    simp only [List.foldl_cons]
    obtain ⟨hmem, hmin⟩ := ih (if a.createdAt < x.createdAt then a else x)
    have hyx : (if a.createdAt < x.createdAt then a else x).createdAt ≤
        x.createdAt := by split <;> omega
    have hya : (if a.createdAt < x.createdAt then a else x).createdAt ≤
        a.createdAt := by split <;> omega
    constructor
    · rcases List.mem_cons.mp hmem with h | h
      · rw [h]
        split
        · exact List.mem_cons_of_mem _ (List.mem_cons_self _ _)
        · exact List.mem_cons_self _ _
      · exact List.mem_cons_of_mem _ (List.mem_cons_of_mem _ h)
    · intro q hq
      have hres := hmin _ (List.mem_cons_self _ _)
      rcases List.mem_cons.mp hq with rfl | hq2
      · exact hres.trans hyx
      rcases List.mem_cons.mp hq2 with rfl | hq3
      · exact hres.trans hya
      · exact hmin _ (List.mem_cons_of_mem _ hq3)

/-- The running `reduce` for the newest patient lands on a stored patient
of maximal creation time. -/
theorem foldl_newest (l : List Patient) (x : Patient) :
    l.foldl (fun newest p =>
        if newest.createdAt < p.createdAt then p else newest) x ∈ x :: l ∧
    ∀ q ∈ x :: l,
      q.createdAt ≤
        (l.foldl (fun newest p =>
          if newest.createdAt < p.createdAt then p else newest) x).createdAt := by
  induction l generalizing x with
  | nil => simp
  | cons a as ih =>
    simp only [List.foldl_cons]
    obtain ⟨hmem, hmax⟩ := ih (if x.createdAt < a.createdAt then a else x)
    have hyx : x.createdAt ≤
        (if x.createdAt < a.createdAt then a else x).createdAt := by
      split <;> omega
    have hya : a.createdAt ≤
        (if x.createdAt < a.createdAt then a else x).createdAt := by
      split <;> omega
    constructor
    · rcases List.mem_cons.mp hmem with h | h
      · rw [h]
        split
        · exact List.mem_cons_of_mem _ (List.mem_cons_self _ _)
        · exact List.mem_cons_self _ _
      · exact List.mem_cons_of_mem _ (List.mem_cons_of_mem _ h)
    · intro q hq
      have hres := hmax _ (List.mem_cons_self _ _)
      rcases List.mem_cons.mp hq with rfl | hq2
      · exact hyx.trans hres
      rcases List.mem_cons.mp hq2 with rfl | hq3
      · exact hya.trans hres
      · exact hmax _ (List.mem_cons_of_mem _ hq3)

theorem reduceOldest_spec (l : List Patient) (p : Patient)
    (h : reduceOldest l = some p) :
    p ∈ l ∧ ∀ q ∈ l, p.createdAt ≤ q.createdAt := by
  cases l with
  | nil => simp [reduceOldest] at h
  | cons x xs =>
    simp only [reduceOldest, Option.some.injEq] at h
    subst h
    exact foldl_oldest xs x

theorem reduceNewest_spec (l : List Patient) (p : Patient)
    (h : reduceNewest l = some p) :
    p ∈ l ∧ ∀ q ∈ l, q.createdAt ≤ p.createdAt := by
  cases l with
  | nil => simp [reduceNewest] at h
  | cons x xs =>
    simp only [reduceNewest, Option.some.injEq] at h
    subst h
    exact foldl_newest xs x

theorem foldl_storage (l : List Recording) (n : Nat) :
    l.foldl (fun total r => total + r.fileSize) n =
      n + (l.map Recording.fileSize).sum := by
  induction l generalizing n with
  | nil => simp
  | cons r rs ih =>
    simp only [List.foldl_cons, List.map_cons, List.sum_cons, ih]
    omega

theorem calculateStorageSize_eq (l : List Recording) :
    calculateStorageSize l = (l.map Recording.fileSize).sum := by
  simpa [calculateStorageSize] using foldl_storage l 0

/-- The store after the spec §8 example patient is added. -/
def dbAnnC6 : DB :=
  { patients := [{ id := 1, firstName := "Ann", lastName := "Lee",
                   dateOfBirth := some "1970-01-01", gender := some "F",
                   createdAt := 100, updatedAt := 100 }]
    nextPatientId := 2 }

/-- The store after the spec §8 example 10000-byte recording is added. -/
def dbRecC6 : DB :=
  { patients := [{ id := 1, firstName := "Ann", lastName := "Lee",
                   dateOfBirth := some "1970-01-01", gender := some "F",
                   createdAt := 100, updatedAt := 100 }]
    recordings := [{ id := 1, patientId := 1, dateTime := 200,
                     audioBlob := some 10000, duration := 5000,
                     mimeType := "audio/webm", fileSize := 10000,
                     createdAt := 200 }]
    nextPatientId := 2
    nextRecordingId := 2 }

/-- Claim C6: `getDatabaseStats` reports the patient count, the recording
count, the total payload bytes as the sum of all stored recordings' byte
sizes, and an oldest and a newest stored patient by creation time; in
particular, on the spec §8 example store — one patient, then one
10000-byte recording — it reports one recording totalling 10000 bytes. -/
theorem c6_database_stats :
    (∀ db : DB,
      (getDatabaseStats db).totalPatients = db.patients.length ∧
      (getDatabaseStats db).totalRecordings = db.recordings.length ∧
      (getDatabaseStats db).totalStorageBytes =
        (db.recordings.map Recording.fileSize).sum ∧
      (∀ p, (getDatabaseStats db).oldestPatient = some p →
        p ∈ db.patients ∧ ∀ q ∈ db.patients, p.createdAt ≤ q.createdAt) ∧
      (∀ p, (getDatabaseStats db).newestPatient = some p →
        p ∈ db.patients ∧ ∀ q ∈ db.patients, q.createdAt ≤ p.createdAt) ∧
      (db.patients ≠ [] → (getDatabaseStats db).oldestPatient.isSome ∧
        (getDatabaseStats db).newestPatient.isSome)) ∧
    addPatient emptyDB
        { firstName := "Ann", lastName := "Lee",
          dateOfBirth := some "1970-01-01", gender := some "F" } 100 =
      .ok (1, dbAnnC6) ∧
    addRecording dbAnnC6
        { patientId := 1, audioBlob := some 10000, duration := some 5000,
          mimeType := some "audio/webm" } 200 =
      .ok (1, dbRecC6) ∧
    (getDatabaseStats dbRecC6).totalRecordings = 1 ∧
    (getDatabaseStats dbRecC6).totalStorageBytes = 10000 := by
  constructor
  · intro db
    have hpperm := sortBy_perm patientNewerFirst db.patients
    have hrperm := sortBy_perm recordingNewerFirst db.recordings
    refine ⟨?_, ?_, ?_, ?_, ?_, ?_⟩
    · simpa [getDatabaseStats, getAllPatients] using hpperm.length_eq
    · simpa [getDatabaseStats, getAllRecordings] using hrperm.length_eq
    · have h1 := calculateStorageSize_eq (getAllRecordings db)
      have h2 : ((getAllRecordings db).map Recording.fileSize).sum =
          (db.recordings.map Recording.fileSize).sum :=
        (hrperm.map Recording.fileSize).sum_eq
      simpa [getDatabaseStats, h1] using h2
    · intro p hp
      simp only [getDatabaseStats] at hp
      have hspec := reduceOldest_spec (getAllPatients db) p hp
      refine ⟨hpperm.mem_iff.mp hspec.1, ?_⟩
      intro q hq
      exact hspec.2 q (hpperm.mem_iff.mpr hq)
    · intro p hp
      simp only [getDatabaseStats] at hp
      have hspec := reduceNewest_spec (getAllPatients db) p hp
      refine ⟨hpperm.mem_iff.mp hspec.1, ?_⟩
      intro q hq
      exact hspec.2 q (hpperm.mem_iff.mpr hq)
    · intro hne
      cases hg : getAllPatients db with
      | nil =>
        exfalso
        apply hne
        have hlen : db.patients.length = 0 := by
          have := hpperm.length_eq
          rw [show sortBy patientNewerFirst db.patients = [] from hg] at this
          simpa using this.symm
        exact List.length_eq_zero.mp hlen
      | cons x xs =>
        constructor <;>
          simp [getDatabaseStats, reduceOldest, reduceNewest, hg]
  · refine ⟨by decide, by decide, by decide, by decide⟩

end ParkinsonWebTest
